import Mathlib

set_option autoImplicit false

namespace Alchemy

/-!
Shallow embedding of the alchemy repository's cache/throttle layer, the
atomic-transaction coordinator contract, and the diesel session/oauth
repository adapters.

The redis client (`infrastructure::clients::redis`, re-exported by hextacy)
is external to the repository; its commands used by the sources
(`GET`, `SET`, `SETEX`, `INCRBY`, `DEL`) are modelled below with their
documented semantics, including key expiry and transient transport faults.
-/

/-- Values held in the redis store.  Redis stores strings; a payload that was
written as an integer (and therefore parses back as one) is tagged `int`,
any other payload is tagged `str`. -/
inductive RVal where
  | int (n : Int)
  | str (s : String)
  deriving DecidableEq, Repr

/-- Error kinds surfaced by the redis client: `nil` when an absent or expired
key is read into a non-optional type, `typ` when a payload fails type
conversion, `io` for a transport failure (cache unreachable). -/
inductive RedisErr where
  | nil
  | typ
  | io
  deriving DecidableEq, Repr

/-- One key/value entry of the redis store, together with its absolute expiry
instant (`none` when the key has no TTL and never expires). -/
structure REntry where
  key : String
  val : RVal
  expiresAt : Option Nat
  deriving DecidableEq, Repr

/-- A pooled redis connection together with the store it talks to.
`faults` is a schedule of transient transport failures: the head tells whether
the next command fails with an `io` error before touching the store. -/
structure RedisConn where
  entries : List REntry
  faults : List Bool
  deriving DecidableEq, Repr

/-- Consume the next scheduled fault (an empty schedule means no faults). -/
def takeFault (c : RedisConn) : RedisConn × Bool :=
  match c.faults with
  | [] => (c, false)
  | f :: rest => (⟨c.entries, rest⟩, f)

/-- Look a key up in the store, ignoring expiry. -/
def lookupEntry (es : List REntry) (k : String) : Option REntry :=
  es.find? (fun e => e.key == k)

/-- Store an entry, replacing any previous entry with the same key. -/
def setEntry (es : List REntry) (e : REntry) : List REntry :=
  e :: es.filter (fun x => x.key != e.key)

/-- Remove a key from the store. -/
def delEntry (es : List REntry) (k : String) : List REntry :=
  es.filter (fun e => e.key != k)

/-- An entry is live at instant `now` while `now` is before its expiry. -/
def entryLive (e : REntry) (now : Nat) : Bool :=
  match e.expiresAt with
  | none => true
  | some t => now < t

/-- Look a key up as redis does: an expired entry behaves as absent. -/
def liveEntry (es : List REntry) (k : String) (now : Nat) : Option REntry :=
  match lookupEntry es k with
  | none => none
  | some e => if entryLive e now then some e else none

/-- `GET key` read as an `i64` (`conn.get::<&str, i64>`). -/
def rdGetI64 (c : RedisConn) (now : Nat) (k : String) :
    RedisConn × Except RedisErr Int :=
  let (c, f) := takeFault c
  if f then (c, .error .io)
  else
    match liveEntry c.entries k now with
    | none => (c, .error .nil)
    | some e =>
      match e.val with
      | .int n => (c, .ok n)
      | .str _ => (c, .error .typ)

/-- `GET key` read as a `String` (`conn.get::<&str, String>`); an integer
payload reads back as its decimal representation. -/
def rdGetStr (c : RedisConn) (now : Nat) (k : String) :
    RedisConn × Except RedisErr String :=
  let (c, f) := takeFault c
  if f then (c, .error .io)
  else
    match liveEntry c.entries k now with
    | none => (c, .error .nil)
    | some e =>
      match e.val with
      | .int n => (c, .ok (toString n))
      | .str s => (c, .ok s)

/-- `SETEX key ttl value` (`conn.set_ex`): stores the value with expiry
`now + ttl`. -/
def rdSetEx (c : RedisConn) (now : Nat) (k : String) (v : RVal) (ttl : Nat) :
    RedisConn × Except RedisErr Unit :=
  let (c, f) := takeFault c
  if f then (c, .error .io)
  else (⟨setEntry c.entries ⟨k, v, some (now + ttl)⟩, c.faults⟩, .ok ())

/-- `SET key value` without expiry (`conn.set`). -/
def rdSet (c : RedisConn) (k : String) (v : RVal) :
    RedisConn × Except RedisErr Unit :=
  let (c, f) := takeFault c
  if f then (c, .error .io)
  else (⟨setEntry c.entries ⟨k, v, none⟩, c.faults⟩, .ok ())

/-- `INCRBY key delta` (`conn.incr`): atomically adds `delta` to the integer at
`key`.  An absent or expired key is initialized to 0 first and the fresh entry
gets no TTL; an existing entry keeps its TTL unchanged; a non-integer payload
is a type error.  These are the documented redis semantics of `INCR`. -/
def rdIncr (c : RedisConn) (now : Nat) (k : String) (delta : Int) :
    RedisConn × Except RedisErr Int :=
  let (c, f) := takeFault c
  if f then (c, .error .io)
  else
    match liveEntry c.entries k now with
    | none =>
      (⟨setEntry c.entries ⟨k, .int delta, none⟩, c.faults⟩, .ok delta)
    | some e =>
      match e.val with
      | .int n =>
        (⟨setEntry c.entries ⟨k, .int (n + delta), e.expiresAt⟩, c.faults⟩, .ok (n + delta))
      | .str _ => (c, .error .typ)

/-- `DEL key` (`conn.del`): removing an absent key is not an error, the reply
is merely the number of removed keys. -/
def rdDel (c : RedisConn) (k : String) : RedisConn × Except RedisErr Unit :=
  let (c, f) := takeFault c
  if f then (c, .error .io)
  else (⟨delEntry c.entries k, c.faults⟩, .ok ())

/-! ## The cache service, src/app/src/services/cache.rs -/

/-- `CacheId` from src/app/src/services/cache.rs. -/
inductive CacheId where
  | LoginAttempts
  | Session
  | OTPToken
  | RegToken
  | PWToken
  deriving DecidableEq, Repr

/-- `impl Display for CacheId` from src/app/src/services/cache.rs. -/
def displayCacheId : CacheId → String
  | .LoginAttempts => "auth:login_attempts"
  | .OTPToken => "auth:otp"
  | .Session => "auth:session"
  | .RegToken => "auth:registration_token"
  | .PWToken => "auth:set_pw"

/-- `Cache::prefix_id` from src/app/src/services/cache.rs:
`format!("{}:{}", cache_id, key)`. -/
def prefix_id (cache_id : CacheId) (key : String) : String :=
  displayCacheId cache_id ++ ":" ++ key

/-- `CacheError` from src/app/src/services/cache.rs: a redis client error or a
serde (de)serialization error. -/
inductive CacheError where
  | Redis (e : RedisErr)
  | Serde
  deriving DecidableEq, Repr

/-- `Cache::get::<T>` from src/app/src/services/cache.rs: read the prefixed key
as a string, then deserialize.  `dec` stands for `serde_json::from_str::<T>`. -/
def cacheGet {T : Type} (dec : String → Option T) (cache_id : CacheId)
    (key : String) (conn : RedisConn) (now : Nat) :
    RedisConn × Except CacheError T :=
  let k := prefix_id cache_id key
  match rdGetStr conn now k with
  | (c, .error e) => (c, .error (.Redis e))
  | (c, .ok s) =>
    match dec s with
    | some v => (c, .ok v)
    | none => (c, .error .Serde)

/-- `Cache::set::<T>` from src/app/src/services/cache.rs: serialize the value
(`enc` stands for `serde_json::to_string`) and store it under the prefixed key,
with `SETEX` when a TTL is supplied and plain `SET` otherwise. -/
def cacheSet {T : Type} (enc : T → String) (cache_id : CacheId) (key : String)
    (val : T) (ex : Option Nat) (conn : RedisConn) (now : Nat) :
    RedisConn × Except CacheError Unit :=
  let k := prefix_id cache_id key
  match ex with
  | some ttl =>
    match rdSetEx conn now k (.str (enc val)) ttl with
    | (c, .error e) => (c, .error (.Redis e))
    | (c, .ok _) => (c, .ok ())
  | none =>
    match rdSet conn k (.str (enc val)) with
    | (c, .error e) => (c, .error (.Redis e))
    | (c, .ok _) => (c, .ok ())

/-- `Cache::delete` from src/app/src/services/cache.rs: `DEL` the prefixed
key. -/
def cacheDelete (cache_id : CacheId) (key : String) (conn : RedisConn) :
    RedisConn × Except CacheError Unit :=
  match rdDel conn (prefix_id cache_id key) with
  | (c, .error e) => (c, .error (.Redis e))
  | (c, .ok _) => (c, .ok ())

/-! ## The auth cache adapter, src/server/src/api/router/auth/adapter.rs -/

/-- The `AuthCache` category enum used by the auth service.  Modelled from the
spec: the enum itself lives in the server config module, which is not under
src/; the variants are those used by src/server/src/api/router/auth/adapter.rs. -/
inductive AuthCache where
  | LoginAttempts
  | Session
  | OTPThrottle
  | OTPAttempts
  | EmailThrottle
  deriving DecidableEq, Repr

/-- Modelled from the spec: the category tag of each `AuthCache` variant.  The
concrete tag strings live in the server config module, outside src/; the spec
only requires them to be distinct stable names, and they contain no colon. -/
def authCacheTag : AuthCache → String
  | .LoginAttempts => "login_attempts"
  | .Session => "session"
  | .OTPThrottle => "otp_throttle"
  | .OTPAttempts => "otp_attempts"
  | .EmailThrottle => "email_throttle"

/-- Modelled from the spec: `CacheAccess::construct_key` (hextacy, outside
src/) builds a cache key as "a deterministic string composed of a fixed domain
prefix, a category tag, and the caller-supplied identity".  The auth adapter's
domain is "auth" (`fn domain() -> "auth"` in adapter.rs). -/
def construct_key (cache_id : AuthCache) (key : String) : String :=
  "auth" ++ ":" ++ authCacheTag cache_id ++ ":" ++ key

/-- Modelled from the spec: the wrong-password throttle TTL in seconds
(`WRONG_PASSWORD_CACHE_DURATION`, declared in the server config outside src/).
Only its positivity matters to the claims. -/
def WRONG_PASSWORD_CACHE_DURATION : Nat := 300

/-- Modelled from the spec: the one-time-code throttle TTL in seconds
(`OTP_THROTTLE_DURATION`, declared in the server config outside src/). -/
def OTP_THROTTLE_DURATION : Nat := 300

/-- `Utc::now().timestamp()` at model instant `now`. -/
def utcTimestamp (now : Nat) : Int :=
  now

/-- `CacheContract::cache_login_attempt` from
src/server/src/api/router/auth/adapter.rs: `INCR` the login-attempt key by 1;
only when the increment command itself returns an error fall back to
`SETEX key WRONG_PASSWORD_CACHE_DURATION 1`.  The `set_ex` reply is modelled
as the numeric value just written. -/
def cache_login_attempt (conn : RedisConn) (now : Nat) (user_id : String) :
    RedisConn × Except CacheError Int :=
  let key := construct_key .LoginAttempts user_id
  match rdIncr conn now key 1 with
  | (c, .ok n) => (c, .ok n)
  | (c, .error _) =>
    match rdSetEx c now key (.int 1) WRONG_PASSWORD_CACHE_DURATION with
    | (c2, .ok _) => (c2, .ok 1)
    | (c2, .error e) => (c2, .error (.Redis e))

/-- `CacheContract::delete_login_attempts` from adapter.rs: `DEL` the
login-attempt key (via `CacheAccess::delete`, which deletes the constructed
key). -/
def delete_login_attempts (conn : RedisConn) (user_id : String) :
    RedisConn × Except CacheError Unit :=
  match rdDel conn (construct_key .LoginAttempts user_id) with
  | (c, .error e) => (c, .error (.Redis e))
  | (c, .ok _) => (c, .ok ())

/-- `CacheContract::cache_otp_throttle` from
src/server/src/api/router/auth/adapter.rs: read the attempt-count key; on `Ok`
overwrite the throttle key with the current timestamp and the attempt key with
the incremented count, both with `OTP_THROTTLE_DURATION`; on any `Err` write
the throttle key with the current timestamp and the attempt key with 1, both
with `OTP_THROTTLE_DURATION`.  The final `set_ex` reply is modelled as the
numeric value just written. -/
def cache_otp_throttle (conn : RedisConn) (now : Nat) (user_id : String) :
    RedisConn × Except CacheError Int :=
  let throttle_key := construct_key .OTPThrottle user_id
  let attempt_key := construct_key .OTPAttempts user_id
  match rdGetI64 conn now attempt_key with
  | (c, .ok attempts) =>
    match rdSetEx c now throttle_key (.int (utcTimestamp now)) OTP_THROTTLE_DURATION with
    | (c2, .error e) => (c2, .error (.Redis e))
    | (c2, .ok _) =>
      match rdSetEx c2 now attempt_key (.int (attempts + 1)) OTP_THROTTLE_DURATION with
      | (c3, .error e) => (c3, .error (.Redis e))
      | (c3, .ok _) => (c3, .ok attempts)
  | (c, .error _) =>
    match rdSetEx c now throttle_key (.int (utcTimestamp now)) OTP_THROTTLE_DURATION with
    | (c2, .error e) => (c2, .error (.Redis e))
    | (c2, .ok _) =>
      match rdSetEx c2 now attempt_key (.int 1) OTP_THROTTLE_DURATION with
      | (c3, .error e) => (c3, .error (.Redis e))
      | (c3, .ok _) => (c3, .ok 1)

/-- `CacheContract::delete_otp_throttle` from adapter.rs: delete the throttle
key, then the attempt key (each via `CacheAccess::delete`). -/
def delete_otp_throttle (conn : RedisConn) (user_id : String) :
    RedisConn × Except CacheError Unit :=
  match rdDel conn (construct_key .OTPThrottle user_id) with
  | (c, .error e) => (c, .error (.Redis e))
  | (c, .ok _) =>
    match rdDel c (construct_key .OTPAttempts user_id) with
    | (c2, .error e) => (c2, .error (.Redis e))
    | (c2, .ok _) => (c2, .ok ())

/-- One interleaved schedule of `n` concurrent `cache_login_attempt` callers.
On the fault-free path every caller's entire observable action is its single
atomic `INCR`, so an arbitrary interleaving of `n` callers is a sequence of
`n` calls; the list collects each caller's reply in schedule order. -/
def runLoginAttempts (conn : RedisConn) (now : Nat) (user_id : String) :
    Nat → RedisConn × List (Except CacheError Int)
  | 0 => (conn, [])
  | n + 1 =>
    let (c, r) := cache_login_attempt conn now user_id
    let (c2, rs) := runLoginAttempts c now user_id n
    (c2, r :: rs)

/-! ## The atomic transaction coordinator

The `Atomic` trait (src/hextacy/src/db.rs) declares
`start_transaction`, `commit_transaction` and `abort_transaction`; the
coordinator that drives them (the `atomic!` macro expansion) is not under
src/, so it is modelled from the spec algorithm in §4.2. -/

/-- A trace event of one atomic scope: which backend had a transaction
started, committed or aborted. -/
inductive TxEvent where
  | start (backend : Nat)
  | commit (backend : Nat)
  | abort (backend : Nat)
  deriving DecidableEq, Repr

/-- A transaction handle: the backend it belongs to and the snapshot of that
backend's visible state taken when the transaction was started (an abort
restores it; a commit replaces it with the body's pending value). -/
structure TxHandle (V : Type) where
  backend : Nat
  base : V
  deriving DecidableEq, Repr

/-- Modelled from the spec (§4.2 step 1): for each participating backend, in
declaration order starting at index `i`, start a transaction producing a
handle, and record the start event. -/
def openScopeAux {V : Type} : Nat → List V → List (TxHandle V) × List TxEvent
  | _, [] => ([], [])
  | i, v :: vs =>
    let (hs, evts) := openScopeAux (i + 1) vs
    (⟨i, v⟩ :: hs, .start i :: evts)

/-- Open the whole scope: backends are numbered in declaration order from 0. -/
def openScope {V : Type} (init : List V) : List (TxHandle V) × List TxEvent :=
  openScopeAux 0 init

/-- Modelled from the spec (§4.2 step 3): on body success commit every handle
in the order opened; committing a handle publishes the body's pending value
for that backend. -/
def commitScope {V : Type} : List (TxHandle V) → List V → List V × List TxEvent
  | [], _ => ([], [])
  | _ :: _, [] => ([], [])
  | h :: hs, p :: ps =>
    let (finals, evts) := commitScope hs ps
    (p :: finals, .commit h.backend :: evts)

/-- Modelled from the spec (§4.2 step 4): abort the given handles in list
order, recording an abort event for each and collecting the backends whose
`abort_transaction` itself failed (they are logged, never returned). -/
def abortScope {V : Type} (abortFails : Nat → Bool) :
    List (TxHandle V) → List TxEvent × List Nat
  | [] => ([], [])
  | h :: hs =>
    let (evts, failed) := abortScope abortFails hs
    (.abort h.backend :: evts,
     if abortFails h.backend then h.backend :: failed else failed)

/-- Modelled from the spec (§4.2): the atomic scope coordinator.  `init` is
each backend's visible state at scope entry, `pending` the per-backend values
the body wants to publish, `body` the body's outcome, `abortFails` which
backends fail their `abort_transaction` during cleanup.  Returns the final
visible states, the event trace, the backends whose abort failed (logged),
and the caller-visible result.  On success every handle is committed in
opening order; on failure every handle is aborted in reverse opening order,
each abort restoring the handle's snapshot, and the body's error is returned
unchanged. -/
def runAtomicScope {V E A : Type} (init : List V) (body : Except E A)
    (pending : List V) (abortFails : Nat → Bool) :
    List V × List TxEvent × List Nat × Except E A :=
  let (handles, startEvts) := openScope init
  match body with
  | .ok a =>
    let (finals, evts) := commitScope handles pending
    (finals, startEvts ++ evts, [], .ok a)
  | .error e =>
    let (evts, failedAborts) := abortScope abortFails handles.reverse
    (handles.map (fun h => h.base), startEvts ++ evts, failedAborts, .error e)

/-! ## Diesel repository adapters -/

/-- `diesel::result::Error`, collapsed to the distinction the sources branch
on: `NotFound` versus every other variant. -/
inductive DieselError where
  | NotFound
  | other
  deriving DecidableEq, Repr

/-- `AdapterError` from src/hextacy/examples/server/src/db/adapters/mod.rs. -/
inductive AdapterError where
  | DoesNotExist
  | Client
  | Diesel (e : DieselError)
  | Mongo
  deriving DecidableEq, Repr

/-- `impl From<diesel::result::Error> for AdapterError` from
src/hextacy/examples/server/src/db/adapters/mod.rs: `NotFound` becomes
`DoesNotExist`, everything else is wrapped in `Diesel`. -/
def adapterErrorFromDiesel : DieselError → AdapterError
  | .NotFound => .DoesNotExist
  | e => .Diesel e

/-- `OAuthProvider` from the clients crate. -/
inductive OAuthProvider where
  | Google
  | Github
  deriving DecidableEq, BEq, Repr

/-- `AuthType` from the session model. -/
inductive AuthType where
  | Native
  | OAuth (p : OAuthProvider)
  deriving DecidableEq, Repr

/-- The user `Role`. -/
inductive Role where
  | user
  | admin
  deriving DecidableEq, Repr

/-- The `User` fields read by `PgSessionAdapter::create`. -/
structure User where
  id : String
  username : String
  email : String
  phone : Option String
  role : Role
  deriving DecidableEq, Repr

/-- A `sessions` row, as in src/storage (timestamps as unix seconds). -/
structure Session where
  id : String
  user_id : String
  username : String
  email : String
  phone : Option String
  role : Role
  csrf : String
  oauth_token : Option String
  expires_at : Int
  auth_type : AuthType
  deriving DecidableEq, Repr

/-- Model constant standing for `chrono::NaiveDateTime::MAX` as a unix
timestamp: the maximum expiry instant representable by the stored type. -/
def naiveDateTimeMax : Int :=
  8210266876799

/-- `PgSessionAdapter::create` from src/storage/src/adapters/postgres/session.rs:
builds a `NewSession` — with `expires_at` set to `NaiveDateTime::MAX` when
`expires_after` is `None` and to `Utc::now() + Duration::seconds(after)`
otherwise, and `auth_type` `Native` unless an oauth provider is given — and
inserts it, returning the inserted row.  `fresh_id` stands for the row id the
database assigns. -/
def sessionCreate (rows : List Session) (now : Int) (fresh_id : String)
    (user : User) (csrf : String) (expires_after : Option Int)
    (oauth_token : Option String) (provider : Option OAuthProvider) :
    List Session × Except AdapterError Session :=
  let s : Session :=
    { id := fresh_id
      user_id := user.id
      username := user.username
      email := user.email
      phone := user.phone
      role := user.role
      csrf := csrf
      oauth_token := oauth_token
      expires_at :=
        match expires_after with
        | none => naiveDateTimeMax
        | some after => now + after
      auth_type :=
        match provider with
        | none => .Native
        | some p => .OAuth p }
  (rows ++ [s], .ok s)

/-- `PgSessionAdapter::get_valid_by_id`: filter on id, csrf and
`expires_at.gt(now)` and take the first row; diesel's `first` yields
`Err(NotFound)` on an empty result, mapped through `AdapterError::from`. -/
def sessionGetValidById (rows : List Session) (now : Int) (id csrf : String) :
    Except AdapterError Session :=
  match (rows.filter fun r => r.id == id && r.csrf == csrf && now < r.expires_at).head? with
  | some r => .ok r
  | none => .error (adapterErrorFromDiesel .NotFound)

/-- `PgSessionAdapter::refresh`: update `expires_at` of the rows matching id
and csrf to 30 minutes from now, load the updated rows, `pop()` the last one
or fail with `DoesNotExist`. -/
def sessionRefresh (rows : List Session) (now : Int) (id csrf : String) :
    List Session × Except AdapterError Session :=
  let rows2 := rows.map fun r =>
    if r.id == id && r.csrf == csrf then { r with expires_at := now + 30 * 60 } else r
  let updated := rows2.filter fun r => r.id == id && r.csrf == csrf
  (rows2,
   match updated.getLast? with
   | some r => .ok r
   | none => .error .DoesNotExist)

/-- `PgSessionAdapter::expire`: update `expires_at` of the rows matching id to
now, load the updated rows, `pop()` the last one or fail with
`DoesNotExist`. -/
def sessionExpire (rows : List Session) (now : Int) (id : String) :
    List Session × Except AdapterError Session :=
  let rows2 := rows.map fun r =>
    if r.id == id then { r with expires_at := now } else r
  let updated := rows2.filter fun r => r.id == id
  (rows2,
   match updated.getLast? with
   | some r => .ok r
   | none => .error .DoesNotExist)

/-- The token payload shape used by the oauth adapter (`TokenResponse`). -/
structure TokenResponseData where
  access_token : String
  refresh_token : Option String
  scope : String
  expires_in : Option Int
  deriving DecidableEq, Repr

/-- An `oauth` row (`OAuthMeta`). -/
structure OAuthMeta where
  id : String
  user_id : String
  account_id : String
  access_token : String
  refresh_token : Option String
  provider : OAuthProvider
  scope : String
  revoked : Bool
  expires_at : Option Int
  deriving DecidableEq, Repr

/-- `PgOAuthAdapter::revoke` from
src/examples/server/src/db/adapters/postgres/diesel/oauth.rs: set `revoked` on
the rows matching the access token, load them, `pop()` the last one or fail
with `DoesNotExist`. -/
def oauthRevoke (rows : List OAuthMeta) (access_token : String) :
    List OAuthMeta × Except AdapterError OAuthMeta :=
  let rows2 := rows.map fun r =>
    if r.access_token == access_token then { r with revoked := true } else r
  let updated := rows2.filter fun r => r.access_token == access_token
  (rows2,
   match updated.getLast? with
   | some r => .ok r
   | none => .error .DoesNotExist)

/-- `PgOAuthAdapter::update`: replace the token fields of the rows matching
user id and provider, load them, `pop()` the last one or fail with
`DoesNotExist`. -/
def oauthUpdate (rows : List OAuthMeta) (now : Int) (user_id : String)
    (tokens : TokenResponseData) (provider : OAuthProvider) :
    List OAuthMeta × Except AdapterError OAuthMeta :=
  let rows2 := rows.map fun r =>
    if r.user_id == user_id && r.provider == provider then
      { r with
        access_token := tokens.access_token
        refresh_token := tokens.refresh_token
        expires_at := tokens.expires_in.map fun v => now + v
        scope := tokens.scope }
    else r
  let updated := rows2.filter fun r => r.user_id == user_id && r.provider == provider
  (rows2,
   match updated.getLast? with
   | some r => .ok r
   | none => .error .DoesNotExist)

/-- The variant-specific part of each `Display` tag of `CacheId`; every tag is
the domain "auth:" followed by this colon-free suffix. -/
def cacheIdSuffix : CacheId → String
  | .LoginAttempts => "login_attempts"
  | .OTPToken => "otp"
  | .Session => "session"
  | .RegToken => "registration_token"
  | .PWToken => "set_pw"

/-! # Theorems -/

theorem stringDataInj {s t : String} (h : s.data = t.data) : s = t := by
  cases s; cases t; exact congrArg String.mk h

/-- Splitting at a separator character that occurs in neither left part is
unambiguous. -/
theorem colonSepInj : ∀ a b x y : List Char, ':' ∉ a → ':' ∉ b →
    a ++ ':' :: x = b ++ ':' :: y → a = b ∧ x = y := by
  intro a
  induction a with
  | nil =>
    intro b x y _ hb h
    cases b with
    | nil => simpa using h
    | cons d bs =>
      exfalso
      simp only [List.nil_append, List.cons_append, List.cons.injEq] at h
      exact hb (h.1 ▸ List.mem_cons_self d bs)
  | cons c as ih =>
    intro b x y ha hb h
    cases b with
    | nil =>
      exfalso
      simp only [List.cons_append, List.nil_append, List.cons.injEq] at h
      exact ha (h.1 ▸ List.mem_cons_self c as)
    | cons d bs =>
      simp only [List.cons_append, List.cons.injEq] at h
      have ha' : ':' ∉ as := fun hm => ha (List.mem_cons_of_mem c hm)
      have hb' : ':' ∉ bs := fun hm => hb (List.mem_cons_of_mem d hm)
      obtain ⟨hab, hxy⟩ := ih bs x y ha' hb' h.2
      exact ⟨by rw [h.1, hab], hxy⟩

theorem displayCacheId_eq (c : CacheId) :
    displayCacheId c = "auth:" ++ cacheIdSuffix c := by
  cases c <;> rfl

theorem cacheIdSuffix_colon_free (c : CacheId) : ':' ∉ (cacheIdSuffix c).data := by
  cases c <;> decide

theorem cacheIdSuffix_inj (a b : CacheId) (h : cacheIdSuffix a = cacheIdSuffix b) :
    a = b := by
  cases a <;> cases b <;> first | rfl | exact absurd h (by decide)

/-- C6: the cache key construction `prefix_id` over the `CacheId` category
tags is deterministic and injective: two (category, identity) inputs produce
the same key string exactly when both the category and the identity are
equal. -/
theorem prefix_id_deterministic_injective (a b : CacheId) (k1 k2 : String) :
    prefix_id a k1 = prefix_id b k2 ↔ a = b ∧ k1 = k2 := by
  constructor
  · intro h
    rw [prefix_id, prefix_id, displayCacheId_eq a, displayCacheId_eq b] at h
    have hd := congrArg String.data h
    simp only [String.data_append] at hd
    simp only [List.append_assoc, List.singleton_append] at hd
    have hcancel := List.append_cancel_left hd
    obtain ⟨hs, hk⟩ := colonSepInj _ _ _ _
      (cacheIdSuffix_colon_free a) (cacheIdSuffix_colon_free b) hcancel
    exact ⟨cacheIdSuffix_inj a b (stringDataInj hs), stringDataInj hk⟩
  · rintro ⟨rfl, rfl⟩
    rfl

/-- C10: `PgSessionAdapter::create` stores `NaiveDateTime::MAX` as the expiry
when no `expires_after` is given, and now plus the given number of seconds
otherwise; the inserted row is returned and appended to the table. -/
theorem session_create_expires_at (rows : List Session) (now : Int)
    (fresh_id : String) (user : User) (csrf : String)
    (oauth_token : Option String) (provider : Option OAuthProvider) :
    ((sessionCreate rows now fresh_id user csrf none oauth_token provider).2.toOption.map
        Session.expires_at = some naiveDateTimeMax) ∧
    (∀ after : Int,
      (sessionCreate rows now fresh_id user csrf (some after) oauth_token provider).2.toOption.map
        Session.expires_at = some (now + after)) ∧
    (∀ expires_after : Option Int, ∀ s : Session,
      (sessionCreate rows now fresh_id user csrf expires_after oauth_token provider).2 = .ok s →
      (sessionCreate rows now fresh_id user csrf expires_after oauth_token provider).1 =
        rows ++ [s]) := by
  refine ⟨rfl, fun after => rfl, fun expires_after s h => ?_⟩
  have hs := Except.ok.inj h
  exact congrArg (fun t => rows ++ [t]) hs

/-- An update-returning query over rows of which none matches the predicate
yields no updated rows, provided a non-matching row is left unchanged. -/
theorem updateLoad_nomatch {α : Type} (rows : List α) (f : α → α) (p : α → Bool)
    (hf : ∀ r, p r = false → f r = r) (h : ∀ r ∈ rows, p r = false) :
    (rows.map f).filter p = [] := by
  apply List.filter_eq_nil_iff.mpr
  intro r' hr'
  obtain ⟨r, hr, rfl⟩ := List.mem_map.mp hr'
  rw [hf r (h r hr), h r hr]
  simp

/-- C5: the single-entity repository operations report an absent row as the
distinguished `DoesNotExist` error kind, never as an empty success value; in
particular diesel's `NotFound` maps to `DoesNotExist`. -/
theorem repo_not_found_is_does_not_exist
    (rows : List Session) (orows : List OAuthMeta) (now : Int)
    (id csrf access_token user_id : String) (tokens : TokenResponseData)
    (provider : OAuthProvider)
    (hs : ∀ r ∈ rows, (r.id == id) = false)
    (ho : ∀ r ∈ orows, (r.access_token == access_token) = false)
    (hu : ∀ r ∈ orows, (r.user_id == user_id && r.provider == provider) = false) :
    adapterErrorFromDiesel .NotFound = .DoesNotExist ∧
    sessionGetValidById rows now id csrf = .error .DoesNotExist ∧
    (sessionRefresh rows now id csrf).2 = .error .DoesNotExist ∧
    (sessionExpire rows now id).2 = .error .DoesNotExist ∧
    (oauthRevoke orows access_token).2 = .error .DoesNotExist ∧
    (oauthUpdate orows now user_id tokens provider).2 = .error .DoesNotExist := by
  have hs2 : ∀ r ∈ rows, (r.id == id && r.csrf == csrf) = false := by
    intro r hr
    rw [hs r hr]
    simp
  refine ⟨rfl, ?_, ?_, ?_, ?_, ?_⟩
  · have hfil : (rows.filter fun r =>
        r.id == id && r.csrf == csrf && decide (now < r.expires_at)) = [] := by
      apply List.filter_eq_nil_iff.mpr
      intro r hr
      rw [hs r hr]
      simp
    simp only [sessionGetValidById, hfil]
    rfl
  · have hfil := updateLoad_nomatch rows
      (fun r => if r.id == id && r.csrf == csrf then { r with expires_at := now + 30 * 60 } else r)
      (fun r => r.id == id && r.csrf == csrf)
      (fun r hp => by simp only [hp, Bool.false_eq_true, if_false])
      hs2
    simp only [sessionRefresh, hfil]
    rfl
  · have hfil := updateLoad_nomatch rows
      (fun r => if r.id == id then { r with expires_at := now } else r)
      (fun r => r.id == id)
      (fun r hp => by simp only [hp, Bool.false_eq_true, if_false])
      hs
    simp only [sessionExpire, hfil]
    rfl
  · have hfil := updateLoad_nomatch orows
      (fun r => if r.access_token == access_token then { r with revoked := true } else r)
      (fun r => r.access_token == access_token)
      (fun r hp => by simp only [hp, Bool.false_eq_true, if_false])
      ho
    simp only [oauthRevoke, hfil]
    rfl
  · have hfil := updateLoad_nomatch orows
      (fun r => if r.user_id == user_id && r.provider == provider then
        { r with
          access_token := tokens.access_token
          refresh_token := tokens.refresh_token
          expires_at := tokens.expires_in.map fun v => now + v
          scope := tokens.scope }
        else r)
      (fun r => r.user_id == user_id && r.provider == provider)
      (fun r hp => by simp only [hp, Bool.false_eq_true, if_false])
      hu
    simp only [oauthUpdate, hfil]
    rfl

theorem find_filter_of_imp {α : Type} (p q : α → Bool) (l : List α)
    (h : ∀ x, p x = true → q x = true) : (l.filter q).find? p = l.find? p := by
  induction l with
  | nil => rfl
  | cons a l ih =>
    cases hq : q a with
    | true => simp [List.filter_cons, hq, List.find?_cons, ih]
    | false =>
      have hp : p a = false := by
        cases hpa : p a
        · rfl
        · exact absurd (h a hpa) (by simp [hq])
      simp [List.filter_cons, hq, List.find?_cons, hp, ih]

theorem lookupEntry_setEntry_self (es : List REntry) (k : String) (v : RVal)
    (ex : Option Nat) : lookupEntry (setEntry es ⟨k, v, ex⟩) k = some ⟨k, v, ex⟩ := by
  simp [lookupEntry, setEntry]

theorem lookupEntry_setEntry_ne (es : List REntry) (k k2 : String) (v : RVal)
    (ex : Option Nat) (h : k2 ≠ k) :
    lookupEntry (setEntry es ⟨k, v, ex⟩) k2 = lookupEntry es k2 := by
  rw [lookupEntry, setEntry, List.find?_cons_of_neg]
  · exact find_filter_of_imp _ _ es fun x hx => by
      have hxk : x.key = k2 := by simpa using hx
      simp [hxk, h]
  · simp [Ne.symm h]

theorem lookupEntry_delEntry_self (es : List REntry) (k : String) :
    lookupEntry (delEntry es k) k = none := by
  apply List.find?_eq_none.mpr
  intro x hx
  obtain ⟨-, hne⟩ := List.mem_filter.mp hx
  simpa using hne

theorem lookupEntry_delEntry_ne (es : List REntry) (k k2 : String) (h : k2 ≠ k) :
    lookupEntry (delEntry es k) k2 = lookupEntry es k2 := by
  rw [lookupEntry, delEntry]
  exact find_filter_of_imp _ _ es fun x hx => by
    have hxk : x.key = k2 := by simpa using hx
    simp [hxk, h]

theorem delEntry_of_absent (es : List REntry) (k : String)
    (h : lookupEntry es k = none) : delEntry es k = es := by
  apply List.filter_eq_self.mpr
  intro e he
  have := List.find?_eq_none.mp h e he
  simpa using this

theorem liveEntry_setEntry_self (es : List REntry) (k : String) (v : RVal)
    (ex : Option Nat) (now : Nat) :
    liveEntry (setEntry es ⟨k, v, ex⟩) k now =
      if entryLive ⟨k, v, ex⟩ now then some ⟨k, v, ex⟩ else none := by
  rw [liveEntry, lookupEntry_setEntry_self]

theorem liveEntry_setEntry_ne (es : List REntry) (k k2 : String) (v : RVal)
    (ex : Option Nat) (now : Nat) (h : k2 ≠ k) :
    liveEntry (setEntry es ⟨k, v, ex⟩) k2 now = liveEntry es k2 now := by
  rw [liveEntry, liveEntry, lookupEntry_setEntry_ne es k k2 v ex h]

/-- C7: a value stored through `Cache::set` with a TTL is returned by
`Cache::get` under the same category and key while the TTL has not expired,
and reported as a miss (the redis nil error) once it has; `hrt` is the serde
round-trip property of the serializable value. -/
theorem cache_set_get_roundtrip {T : Type} (enc : T → String)
    (dec : String → Option T) (hrt : ∀ w : T, dec (enc w) = some w)
    (es : List REntry) (cache_id : CacheId) (key : String) (v : T)
    (ttl t0 t1 : Nat) :
    ((cacheSet enc cache_id key v (some ttl) ⟨es, []⟩ t0).2 = .ok ()) ∧
    (t1 < t0 + ttl →
      (cacheGet dec cache_id key
        (cacheSet enc cache_id key v (some ttl) ⟨es, []⟩ t0).1 t1).2 = .ok v) ∧
    (t0 + ttl ≤ t1 →
      (cacheGet dec cache_id key
        (cacheSet enc cache_id key v (some ttl) ⟨es, []⟩ t0).1 t1).2 =
        .error (.Redis .nil)) := by
  refine ⟨rfl, ?_, ?_⟩ <;> intro h
  · show (cacheGet dec cache_id key
      ⟨setEntry es ⟨prefix_id cache_id key, .str (enc v), some (t0 + ttl)⟩, []⟩ t1).2 = .ok v
    rw [cacheGet, rdGetStr, takeFault]
    simp only [if_false, Bool.false_eq_true, reduceIte]
    rw [liveEntry_setEntry_self]
    have hlive : entryLive ⟨prefix_id cache_id key, .str (enc v), some (t0 + ttl)⟩ t1 = true := by
      simp [entryLive, h]
    rw [hlive]
    simp [hrt v]
  · show (cacheGet dec cache_id key
      ⟨setEntry es ⟨prefix_id cache_id key, .str (enc v), some (t0 + ttl)⟩, []⟩ t1).2 =
      .error (.Redis .nil)
    rw [cacheGet, rdGetStr, takeFault]
    simp only [if_false, Bool.false_eq_true, reduceIte]
    rw [liveEntry_setEntry_self]
    have hdead : entryLive ⟨prefix_id cache_id key, .str (enc v), some (t0 + ttl)⟩ t1 = false := by
      simp [entryLive, Nat.not_lt.mpr h]
    rw [hdead]
    simp

/-- C7 witness: instantiated with the identity serialization on strings at
concrete instants 0, TTL 10, read back at 5 (hit) and at 12 (expired miss). -/
theorem cache_set_get_roundtrip_witness :
    ((cacheSet (fun s => s) .Session "k" "v" (some 10) ⟨[], []⟩ 0).2 = .ok ()) ∧
    ((cacheGet some .Session "k"
      (cacheSet (fun s => s) .Session "k" "v" (some 10) ⟨[], []⟩ 0).1 5).2 = .ok "v") ∧
    ((cacheGet some .Session "k"
      (cacheSet (fun s => s) .Session "k" "v" (some 10) ⟨[], []⟩ 0).1 12).2 =
      .error (.Redis .nil)) := by
  obtain ⟨h1, h2, h3⟩ := cache_set_get_roundtrip (fun s => s) some (fun w => rfl)
    [] .Session "k" "v" 10 0 12
  obtain ⟨-, h4, -⟩ := cache_set_get_roundtrip (fun s => s) some (fun w => rfl)
    [] .Session "k" "v" 10 0 5
  exact ⟨h1, h4 (by decide), h3 (by decide)⟩

/-- C8: deleting an absent key through `Cache::delete` succeeds without error
and leaves the store unchanged, and deleting any key twice has the same
outcome and final state as deleting it once. -/
theorem cache_delete_idempotent (es : List REntry) (cache_id : CacheId)
    (key : String) (habsent : lookupEntry es (prefix_id cache_id key) = none) :
    (cacheDelete cache_id key ⟨es, []⟩ = (⟨es, []⟩, .ok ())) ∧
    (∀ es2 : List REntry,
      cacheDelete cache_id key (cacheDelete cache_id key ⟨es2, []⟩).1 =
        ((cacheDelete cache_id key ⟨es2, []⟩).1, .ok ())) := by
  constructor
  · show ((⟨delEntry es (prefix_id cache_id key), []⟩ : RedisConn),
      (.ok () : Except CacheError Unit)) = (⟨es, []⟩, .ok ())
    rw [delEntry_of_absent es _ habsent]
  · intro es2
    show ((⟨delEntry (delEntry es2 (prefix_id cache_id key)) (prefix_id cache_id key), []⟩ : RedisConn),
      (.ok () : Except CacheError Unit)) = (⟨delEntry es2 (prefix_id cache_id key), []⟩, .ok ())
    rw [delEntry_of_absent _ _ (lookupEntry_delEntry_self es2 (prefix_id cache_id key))]

/-- C8 witness: deleting the absent login-attempt record of user u1 from a
store holding an unrelated session entry succeeds and changes nothing, twice
over. -/
theorem cache_delete_idempotent_witness :
    (cacheDelete .LoginAttempts "u1"
        ⟨[⟨"auth:session:s1", .str "x", none⟩], []⟩ =
      (⟨[⟨"auth:session:s1", .str "x", none⟩], []⟩, .ok ())) ∧
    (cacheDelete .LoginAttempts "u1"
        (cacheDelete .LoginAttempts "u1" ⟨[⟨"auth:session:s1", .str "x", none⟩], []⟩).1 =
      ((cacheDelete .LoginAttempts "u1" ⟨[⟨"auth:session:s1", .str "x", none⟩], []⟩).1, .ok ())) := by
  obtain ⟨h1, h2⟩ := cache_delete_idempotent [⟨"auth:session:s1", .str "x", none⟩]
    .LoginAttempts "u1" (by decide)
  exact ⟨h1, h2 [⟨"auth:session:s1", .str "x", none⟩]⟩

theorem authCacheTag_colon_free (c : AuthCache) : ':' ∉ (authCacheTag c).data := by
  cases c <;> decide

theorem authCacheTag_inj (a b : AuthCache) (h : authCacheTag a = authCacheTag b) :
    a = b := by
  cases a <;> cases b <;> first | rfl | exact absurd h (by decide)

/-- The auth-domain key constructor is injective over (category, identity). -/
theorem construct_key_inj (a b : AuthCache) (k1 k2 : String)
    (h : construct_key a k1 = construct_key b k2) : a = b ∧ k1 = k2 := by
  rw [construct_key, construct_key] at h
  have hdom : ("auth" ++ ":" : String) = "auth:" := rfl
  rw [hdom] at h
  have hd := congrArg String.data h
  simp only [String.data_append] at hd
  simp only [List.append_assoc, List.singleton_append] at hd
  have hcancel := List.append_cancel_left hd
  obtain ⟨hs, hk⟩ := colonSepInj _ _ _ _
    (authCacheTag_colon_free a) (authCacheTag_colon_free b) hcancel
  exact ⟨authCacheTag_inj a b (stringDataInj hs), stringDataInj hk⟩

theorem otp_keys_distinct (uid : String) :
    construct_key .OTPThrottle uid ≠ construct_key .OTPAttempts uid := by
  intro h
  exact absurd (construct_key_inj _ _ _ _ h).1 (by decide)

/-- C2 (code bug): on a fresh key `cache_login_attempt` creates the counter at
1 and returns 1, and an increment returns the new count — but the wrong-password
TTL is never attached: the `INCR` path leaves the entry with no expiry both on
creation and on increment, because the `set_ex` fallback only runs when the
increment command errors, which an absent key does not cause. -/
theorem cache_login_attempt_ttl_never_set :
    (cache_login_attempt ⟨[], []⟩ 0 "u1" =
      (⟨[⟨"auth:login_attempts:u1", .int 1, none⟩], []⟩, .ok 1)) ∧
    (cache_login_attempt ⟨[⟨"auth:login_attempts:u1", .int 1, none⟩], []⟩ 0 "u1" =
      (⟨[⟨"auth:login_attempts:u1", .int 2, none⟩], []⟩, .ok 2)) := by
  exact ⟨rfl, rfl⟩

/-- C3 (code bug): `cache_otp_throttle` cannot tell a cache-unavailable
condition from an absent key.  A live record holding 5 attempts exists, the
attempt-count `GET` fails with an io error (transient unavailability), the two
subsequent writes succeed: the catch-all `Err(_)` arm — commented "No key has
been found" in the source — reinitializes the attempt count to 1 and reports
success instead of surfacing the unavailability. -/
theorem cache_otp_throttle_unavailable_treated_as_absent :
    cache_otp_throttle
        ⟨[⟨"auth:otp_attempts:u1", .int 5, some 100⟩], [true, false, false]⟩ 10 "u1" =
      (⟨[⟨"auth:otp_attempts:u1", .int 1, some (10 + OTP_THROTTLE_DURATION)⟩,
         ⟨"auth:otp_throttle:u1", .int 10, some (10 + OTP_THROTTLE_DURATION)⟩],
        []⟩, .ok 1) := by
  rfl

/-- Running `n` interleaved callers against a counter standing at `m` (with no
TTL on the entry) leaves the counter at `m + n` with no TTL, each caller
observing the successive values `m+1 .. m+n`. -/
theorem runLoginAttempts_from (m : Int) (n : Nat) (now : Nat) :
    runLoginAttempts ⟨[⟨"auth:login_attempts:u1", .int m, none⟩], []⟩ now "u1" n =
      (⟨[⟨"auth:login_attempts:u1", .int (m + n), none⟩], []⟩,
       (List.range n).map fun i => .ok (m + 1 + i)) := by
  induction n generalizing m with
  | zero => simp [runLoginAttempts]
  | succ n ih =>
    have hstep : cache_login_attempt ⟨[⟨"auth:login_attempts:u1", .int m, none⟩], []⟩ now "u1" =
        (⟨[⟨"auth:login_attempts:u1", .int (m + 1), none⟩], []⟩, .ok (m + 1)) := rfl
    rw [runLoginAttempts, hstep]
    dsimp only
    rw [ih (m + 1)]
    dsimp only
    have hlist : ((List.range (n + 1)).map fun (i : Nat) =>
          (Except.ok (m + 1 + (i : Int)) : Except CacheError Int)) =
        Except.ok (m + 1) ::
          ((List.range n).map fun (i : Nat) =>
            (Except.ok (m + 1 + 1 + (i : Int)) : Except CacheError Int)) := by
      rw [List.range_succ_eq_map, List.map_cons, List.map_map]
      refine congrArg₂ List.cons (by norm_num) ?_
      apply List.map_congr_left
      intro i _
      simp only [Function.comp_apply, Except.ok.injEq]
      push_cast
      ring
    rw [hlist]
    have hval : m + 1 + (n : Int) = m + ((n + 1 : Nat) : Int) := by
      push_cast
      ring
    rw [hval]

/-- C9 (code bug): any interleaving of `n + 1` concurrent callers against a
fresh login-attempt key ends with the counter at exactly `n + 1` and every
caller observing a distinct successive value `1 .. n+1` (no lost updates,
since each call is one atomic `INCR`) — but the key's TTL is never set (the
final entry has no expiry), not "set exactly once" as claimed, because the
`set_ex` fallback carrying the TTL is unreachable on this path. -/
theorem login_attempt_race_counter_exact_ttl_never_set (n now : Nat) :
    runLoginAttempts ⟨[], []⟩ now "u1" (n + 1) =
      (⟨[⟨"auth:login_attempts:u1", .int ((n : Int) + 1), none⟩], []⟩,
       (List.range (n + 1)).map fun (i : Nat) =>
         (Except.ok ((i : Int) + 1) : Except CacheError Int)) := by
  have hstep : cache_login_attempt ⟨[], []⟩ now "u1" =
      (⟨[⟨"auth:login_attempts:u1", .int 1, none⟩], []⟩, .ok 1) := rfl
  rw [runLoginAttempts, hstep]
  dsimp only
  rw [runLoginAttempts_from 1 n now]
  dsimp only
  have hval : (1 : Int) + (n : Int) = (n : Int) + 1 := by ring
  rw [hval]
  have hlist : ((List.range (n + 1)).map fun (i : Nat) =>
        (Except.ok ((i : Int) + 1) : Except CacheError Int)) =
      Except.ok 1 ::
        ((List.range n).map fun (i : Nat) =>
          (Except.ok ((1 : Int) + 1 + (i : Int)) : Except CacheError Int)) := by
    rw [List.range_succ_eq_map, List.map_cons, List.map_map]
    refine congrArg₂ List.cons (by norm_num) ?_
    apply List.map_congr_left
    intro i _
    simp only [Function.comp_apply, Except.ok.injEq]
    push_cast
    ring
  rw [hlist]

/-- C4: on every call, whether or not a previous attempt count exists,
`cache_otp_throttle` writes the one-time-code throttle key (current
timestamp) and the attempt-count key (previous count plus one, or 1 when
absent) together, both with the OTP-throttle TTL; and `delete_otp_throttle`
deletes both keys together. -/
theorem cache_otp_throttle_writes_both_keys (es : List REntry) (now : Nat)
    (uid : String) :
    (∀ (e : REntry) (n : Int),
      liveEntry es (construct_key .OTPAttempts uid) now = some e → e.val = .int n →
      (cache_otp_throttle ⟨es, []⟩ now uid).2 = .ok n ∧
      lookupEntry (cache_otp_throttle ⟨es, []⟩ now uid).1.entries
          (construct_key .OTPThrottle uid) =
        some ⟨construct_key .OTPThrottle uid, .int (utcTimestamp now),
          some (now + OTP_THROTTLE_DURATION)⟩ ∧
      lookupEntry (cache_otp_throttle ⟨es, []⟩ now uid).1.entries
          (construct_key .OTPAttempts uid) =
        some ⟨construct_key .OTPAttempts uid, .int (n + 1),
          some (now + OTP_THROTTLE_DURATION)⟩) ∧
    (liveEntry es (construct_key .OTPAttempts uid) now = none →
      (cache_otp_throttle ⟨es, []⟩ now uid).2 = .ok 1 ∧
      lookupEntry (cache_otp_throttle ⟨es, []⟩ now uid).1.entries
          (construct_key .OTPThrottle uid) =
        some ⟨construct_key .OTPThrottle uid, .int (utcTimestamp now),
          some (now + OTP_THROTTLE_DURATION)⟩ ∧
      lookupEntry (cache_otp_throttle ⟨es, []⟩ now uid).1.entries
          (construct_key .OTPAttempts uid) =
        some ⟨construct_key .OTPAttempts uid, .int 1,
          some (now + OTP_THROTTLE_DURATION)⟩) ∧
    (∀ es2 : List REntry,
      (delete_otp_throttle ⟨es2, []⟩ uid).2 = .ok () ∧
      lookupEntry (delete_otp_throttle ⟨es2, []⟩ uid).1.entries
        (construct_key .OTPThrottle uid) = none ∧
      lookupEntry (delete_otp_throttle ⟨es2, []⟩ uid).1.entries
        (construct_key .OTPAttempts uid) = none) := by
  have hne := otp_keys_distinct uid
  refine ⟨?_, ?_, ?_⟩
  · intro e n hlive hval
    have hget : rdGetI64 ⟨es, []⟩ now (construct_key .OTPAttempts uid) =
        (⟨es, []⟩, .ok n) := by
      rw [rdGetI64]
      dsimp only [takeFault]
      rw [hlive]
      dsimp only
      rw [hval]
      rfl
    have hrun : cache_otp_throttle ⟨es, []⟩ now uid =
        (⟨setEntry (setEntry es
            ⟨construct_key .OTPThrottle uid, .int (utcTimestamp now),
              some (now + OTP_THROTTLE_DURATION)⟩)
            ⟨construct_key .OTPAttempts uid, .int (n + 1),
              some (now + OTP_THROTTLE_DURATION)⟩, []⟩, .ok n) := by
      rw [cache_otp_throttle]
      rw [hget]
      rfl
    rw [hrun]
    refine ⟨rfl, ?_, ?_⟩
    · rw [lookupEntry_setEntry_ne _ _ _ _ _ hne]
      exact lookupEntry_setEntry_self _ _ _ _
    · exact lookupEntry_setEntry_self _ _ _ _
  · intro hlive
    have hget : rdGetI64 ⟨es, []⟩ now (construct_key .OTPAttempts uid) =
        (⟨es, []⟩, .error .nil) := by
      rw [rdGetI64]
      dsimp only [takeFault]
      rw [hlive]
      rfl
    have hrun : cache_otp_throttle ⟨es, []⟩ now uid =
        (⟨setEntry (setEntry es
            ⟨construct_key .OTPThrottle uid, .int (utcTimestamp now),
              some (now + OTP_THROTTLE_DURATION)⟩)
            ⟨construct_key .OTPAttempts uid, .int 1,
              some (now + OTP_THROTTLE_DURATION)⟩, []⟩, .ok 1) := by
      rw [cache_otp_throttle]
      rw [hget]
      rfl
    rw [hrun]
    refine ⟨rfl, ?_, ?_⟩
    · rw [lookupEntry_setEntry_ne _ _ _ _ _ hne]
      exact lookupEntry_setEntry_self _ _ _ _
    · exact lookupEntry_setEntry_self _ _ _ _
  · intro es2
    have hrun : delete_otp_throttle ⟨es2, []⟩ uid =
        (⟨delEntry (delEntry es2 (construct_key .OTPThrottle uid))
            (construct_key .OTPAttempts uid), []⟩, .ok ()) := rfl
    rw [hrun]
    refine ⟨rfl, ?_, ?_⟩
    · rw [lookupEntry_delEntry_ne _ _ _ hne]
      exact lookupEntry_delEntry_self es2 _
    · exact lookupEntry_delEntry_self _ _

/-- C4 witness: user u1 with a live attempt count of 3 at instant 10 — both
keys are rewritten with the OTP TTL, and the deletion clears both. -/
theorem cache_otp_throttle_writes_both_keys_witness :
    ((cache_otp_throttle ⟨[⟨"auth:otp_attempts:u1", .int 3, some 50⟩], []⟩ 10 "u1").2 = .ok 3 ∧
     lookupEntry (cache_otp_throttle ⟨[⟨"auth:otp_attempts:u1", .int 3, some 50⟩], []⟩ 10 "u1").1.entries
         "auth:otp_throttle:u1" =
       some ⟨"auth:otp_throttle:u1", .int 10, some 310⟩ ∧
     lookupEntry (cache_otp_throttle ⟨[⟨"auth:otp_attempts:u1", .int 3, some 50⟩], []⟩ 10 "u1").1.entries
         "auth:otp_attempts:u1" =
       some ⟨"auth:otp_attempts:u1", .int 4, some 310⟩) ∧
    ((delete_otp_throttle ⟨[⟨"auth:otp_attempts:u1", .int 3, some 50⟩], []⟩ "u1").2 = .ok () ∧
     lookupEntry (delete_otp_throttle ⟨[⟨"auth:otp_attempts:u1", .int 3, some 50⟩], []⟩ "u1").1.entries
       "auth:otp_throttle:u1" = none ∧
     lookupEntry (delete_otp_throttle ⟨[⟨"auth:otp_attempts:u1", .int 3, some 50⟩], []⟩ "u1").1.entries
       "auth:otp_attempts:u1" = none) := by
  obtain ⟨h1, -, h3⟩ :=
    cache_otp_throttle_writes_both_keys [⟨"auth:otp_attempts:u1", .int 3, some 50⟩] 10 "u1"
  exact ⟨h1 ⟨"auth:otp_attempts:u1", .int 3, some 50⟩ 3 (by decide) rfl,
    h3 [⟨"auth:otp_attempts:u1", .int 3, some 50⟩]⟩

theorem openScopeAux_backends {V : Type} (i : Nat) (vs : List V) :
    ((openScopeAux i vs).1).map (fun h => h.backend) = List.range' i vs.length := by
  induction vs generalizing i with
  | nil => rfl
  | cons v vs ih => simp [openScopeAux, ih, List.range']

theorem openScopeAux_bases {V : Type} (i : Nat) (vs : List V) :
    ((openScopeAux i vs).1).map (fun h => h.base) = vs := by
  induction vs generalizing i with
  | nil => rfl
  | cons v vs ih => simp [openScopeAux, ih]

theorem openScopeAux_events {V : Type} (i : Nat) (vs : List V) :
    (openScopeAux i vs).2 = (List.range' i vs.length).map TxEvent.start := by
  induction vs generalizing i with
  | nil => rfl
  | cons v vs ih => simp [openScopeAux, ih, List.range']

theorem openScope_backends {V : Type} (init : List V) :
    ((openScope init).1).map (fun h => h.backend) = List.range init.length := by
  rw [openScope, openScopeAux_backends, List.range_eq_range']

theorem openScope_bases {V : Type} (init : List V) :
    ((openScope init).1).map (fun h => h.base) = init :=
  openScopeAux_bases 0 init

theorem openScope_events {V : Type} (init : List V) :
    (openScope init).2 = (List.range init.length).map TxEvent.start := by
  rw [openScope, openScopeAux_events, List.range_eq_range']

theorem openScope_length {V : Type} (init : List V) :
    ((openScope init).1).length = init.length := by
  have h := congrArg List.length (openScope_bases init)
  simpa using h

theorem commitScope_spec {V : Type} (hs : List (TxHandle V)) (ps : List V)
    (h : hs.length = ps.length) :
    commitScope hs ps = (ps, hs.map fun hh => TxEvent.commit hh.backend) := by
  induction hs generalizing ps with
  | nil =>
    cases ps with
    | nil => rfl
    | cons p ps => exact absurd h (by simp)
  | cons hh hs ih =>
    cases ps with
    | nil => exact absurd h (by simp)
    | cons p ps =>
      have hlen : hs.length = ps.length := by simpa using h
      simp [commitScope, ih ps hlen]

theorem abortScope_spec {V : Type} (f : Nat → Bool) (hs : List (TxHandle V)) :
    abortScope f hs = (hs.map fun hh => TxEvent.abort hh.backend,
      (hs.map fun hh => hh.backend).filter f) := by
  induction hs with
  | nil => rfl
  | cons hh hs ih => simp [abortScope, ih, List.filter_cons]

/-- C1 (modelled from the spec, §4.2): for an atomic scope over `n ≥ 1`
backends, a successful body leads to `commit_transaction` on every opened
handle, in opening order, publishing every backend's pending effect; a failing
body leads to `abort_transaction` on every opened handle in reverse opening
order, every backend's initial state stays visible, and the caller receives
the body's original error — never an abort error, whichever aborts fail. -/
theorem atomic_scope_commits_all_or_aborts_all_reverse {V E A : Type}
    (init pending : List V) (n : Nat) (_hn : 1 ≤ n)
    (hi : init.length = n) (hp : pending.length = n)
    (body : Except E A) (abortFails : Nat → Bool) :
    (∀ a : A, body = .ok a →
      runAtomicScope init body pending abortFails =
        (pending,
         ((List.range n).map TxEvent.start) ++ ((List.range n).map TxEvent.commit),
         [], .ok a)) ∧
    (∀ e : E, body = .error e →
      runAtomicScope init body pending abortFails =
        (init,
         ((List.range n).map TxEvent.start) ++ ((List.range n).reverse.map TxEvent.abort),
         (List.range n).reverse.filter abortFails, .error e)) := by
  have hback := openScope_backends init
  have hbase := openScope_bases init
  have hevts := openScope_events init
  have hlen := openScope_length init
  rcases hop : openScope init with ⟨hs, evs⟩
  rw [hop] at hback hbase hevts hlen
  dsimp only at hback hbase hevts hlen
  constructor
  · rintro a rfl
    rw [runAtomicScope, hop]
    dsimp only
    rw [commitScope_spec hs pending (by rw [hlen, hi, hp])]
    dsimp only
    have hcommits : (hs.map fun hh => TxEvent.commit hh.backend) =
        (List.range n).map TxEvent.commit := by
      have : (hs.map fun hh => TxEvent.commit hh.backend) =
          (hs.map fun hh => hh.backend).map TxEvent.commit := by
        rw [List.map_map]
        rfl
      rw [this, hback, hi]
    rw [hcommits, hevts, hi]
  · rintro e rfl
    rw [runAtomicScope, hop]
    dsimp only
    rw [abortScope_spec]
    dsimp only
    have haborts : (hs.reverse.map fun hh => TxEvent.abort hh.backend) =
        (List.range n).reverse.map TxEvent.abort := by
      rw [List.map_reverse, List.map_reverse]
      have : (hs.map fun hh => TxEvent.abort hh.backend) =
          (hs.map fun hh => hh.backend).map TxEvent.abort := by
        rw [List.map_map]
        rfl
      rw [this, hback, hi]
    have hfails : (hs.reverse.map fun hh => hh.backend).filter abortFails =
        (List.range n).reverse.filter abortFails := by
      rw [List.map_reverse, hback, hi]
    rw [haborts, hfails, hbase, hevts, hi]

/-- C1 witness: a two-backend scope with initial states 10, 20 and pending
effects 11, 21 — the successful body commits both in order; the failing body
aborts both in reverse order, restores both initial states, and returns the
body's error even though both aborts fail. -/
theorem atomic_scope_witness :
    (1 ≤ 2 ∧
     runAtomicScope [10, 20] (.ok 0 : Except String Nat) [11, 21] (fun _ => true) =
      ([11, 21], [.start 0, .start 1, .commit 0, .commit 1], [], .ok 0)) ∧
    runAtomicScope [10, 20] (.error "boom" : Except String Nat) [11, 21] (fun _ => true) =
      ([10, 20], [.start 0, .start 1, .abort 1, .abort 0], [1, 0], .error "boom") := by
  have hok := (atomic_scope_commits_all_or_aborts_all_reverse [10, 20] [11, 21] 2
    (by decide) rfl rfl (.ok 0 : Except String Nat) (fun _ => true)).1 0 rfl
  have herr := (atomic_scope_commits_all_or_aborts_all_reverse [10, 20] [11, 21] 2
    (by decide) rfl rfl (.error "boom" : Except String Nat) (fun _ => true)).2 "boom" rfl
  rw [hok, herr]
  refine ⟨⟨by decide, ?_⟩, ?_⟩ <;> rfl

/-- C5 witness: a table holding one session s1 and one oauth row for token
tokA of user u1 — looking up, refreshing, expiring, revoking or updating a
non-matching row each yields the distinguished `DoesNotExist`. -/
theorem repo_not_found_witness :
    sessionGetValidById [⟨"s1", "u1", "alice", "a@x.com", none, .user, "c1", none, 100, .Native⟩]
      0 "s2" "c2" = .error .DoesNotExist ∧
    (sessionRefresh [⟨"s1", "u1", "alice", "a@x.com", none, .user, "c1", none, 100, .Native⟩]
      0 "s2" "c2").2 = .error .DoesNotExist ∧
    (sessionExpire [⟨"s1", "u1", "alice", "a@x.com", none, .user, "c1", none, 100, .Native⟩]
      0 "s2").2 = .error .DoesNotExist ∧
    (oauthRevoke [⟨"o1", "u1", "acc1", "tokA", none, .Github, "email", false, none⟩]
      "tokB").2 = .error .DoesNotExist ∧
    (oauthUpdate [⟨"o1", "u1", "acc1", "tokA", none, .Github, "email", false, none⟩]
      0 "u2" ⟨"tokN", none, "email", none⟩ .Google).2 = .error .DoesNotExist := by
  obtain ⟨-, h2, h3, h4, h5, h6⟩ := repo_not_found_is_does_not_exist
    [⟨"s1", "u1", "alice", "a@x.com", none, .user, "c1", none, 100, .Native⟩]
    [⟨"o1", "u1", "acc1", "tokA", none, .Github, "email", false, none⟩]
    0 "s2" "c2" "tokB" "u2" ⟨"tokN", none, "email", none⟩ .Google
    (by decide) (by decide) (by decide)
  exact ⟨h2, h3, h4, h5, h6⟩

end Alchemy
